import Mathlib

/-!
# Verification of the UniProtocol wire codec and engine (lib/UniProtocol.js)

Shallow embedding of the parts of `lib/UniProtocol.js` that the claims are
about: the `Message` data model, `Message.decode`, `Message.prototype.encode`,
`Message.prototype.toAck`, `Message.reassemble`, the identity helpers, the
fragment-reassembly step of `UniProtocol.prototype.receive`, the
response-correlation part of `UniProtocol.prototype.receiveFullMessage`, and a
discrete-time model of the retry scheduling in `UniProtocol.prototype.sendFragment`.

Conventions:
* Node `Buffer`s are `List Nat` with every element `< 256` (writes take the
  value mod 256, exactly like Node's latin1/byte writes).
* JS strings that hold raw codes (`type`, `command`, `protocolSignature`) are
  lists of char codes (`Nat`); `Buffer#toString('ascii', ..)` additionally
  masks each byte with `% 128`, exactly as Node's `ascii` decoding unsets the
  high bit.
* Uninitialised `Buffer.allocUnsafe` bytes that the source never writes on the
  taken paths are modelled as `0`.
* The `sessionId` hex string of the source is modelled by the 8 raw bytes it
  denotes (`write(.., 'hex')` / `toString('hex', ..)` compose to the identity
  on 8-byte buffers).
* The source's local variables are inlined at their use sites (the embedding
  avoids `let` so that proofs can case-split the control flow directly);
  repeated subexpressions are factored into named helper definitions.
-/

/-- A UDP peer endpoint, as delivered by Node's dgram socket. -/
structure Endpoint where
  address : String
  port : Nat
deriving Repr, DecidableEq, Inhabited

/-- The `Message` object of `lib/UniProtocol.js` (constructor, lines 530-553).
`data`/`encoded`/`decoded` are collapsed into the opaque encoded payload
`dataBuffer` (the external `jsbindat` serializer is out of scope; the spec's
round-trip property is stated on the opaque encoded buffer). Field defaults
mirror the constructor's initial values. -/
structure Message where
  sender : Option Endpoint := none
  protocolSignature : List Nat := [85, 78, 80]  -- "UNP"
  wantAck : Bool := false
  isAck : Bool := false
  isNack : Bool := false
  fragmented : Bool := false
  reassembled : Bool := false
  compressedData : Bool := false
  encryptedData : Bool := false
  type : Nat := 0
  command : List Nat := []
  id : Nat := 0
  sessionId : Option (List Nat) := none
  fragmentIndex : Nat := 0
  fragments : Nat := 1
  dataBuffer : Option (List Nat) := none
deriving Repr, DecidableEq, Inhabited

/-- `TYPES` (line 559): the closed set of accepted type characters
`'C','Q','R','E','K','H','h'` as char codes. -/
def TYPES : List Nat := [67, 81, 82, 69, 75, 72, 104]

def MIN_HEADER_SIZE : Nat := 15
def SESSION_SIZE : Nat := 8
def MIN_DATA_FRAGMENT_SIZE : Nat := 16

def FLAG_WANT_ACK : Nat := 1
def FLAG_IS_ACK : Nat := 2
def FLAG_IS_NACK : Nat := 4
def FLAG_HAS_DATA : Nat := 8
def FLAG_FRAGMENTED : Nat := 16
def FLAG_COMPRESSED_DATA : Nat := 32
def FLAG_ENCRYPTED_DATA : Nat := 64
def FLAG_SESSION : Nat := 128

/-- JS truthiness of `flags & FLAG` for a power-of-two flag. -/
def hasFlag (flags flag : Nat) : Bool := flags &&& flag != 0

/-- The flag word built by `Message.prototype.encode` (lines 873-895):
a sum of the set flag bits (one conditional addition per flag, in bit order;
addition of distinct bits is order-independent). -/
def mkFlags (wantAck isAck isNack hasData fragmented compressed encrypted session : Bool) : Nat :=
  (if wantAck then FLAG_WANT_ACK else 0) + (if isAck then FLAG_IS_ACK else 0) +
  (if isNack then FLAG_IS_NACK else 0) + (if hasData then FLAG_HAS_DATA else 0) +
  (if fragmented then FLAG_FRAGMENTED else 0) + (if compressed then FLAG_COMPRESSED_DATA else 0) +
  (if encrypted then FLAG_ENCRYPTED_DATA else 0) + (if session then FLAG_SESSION else 0)

/-- `buffer.readUInt16BE(o)`. -/
def readUInt16BE (b : List Nat) (o : Nat) : Nat := b.getD o 0 * 256 + b.getD (o + 1) 0

/-- `buffer.readUInt32BE(o)`. -/
def readUInt32BE (b : List Nat) (o : Nat) : Nat :=
  ((b.getD o 0 * 256 + b.getD (o + 1) 0) * 256 + b.getD (o + 2) 0) * 256 + b.getD (o + 3) 0

/-- `buffer.writeUInt16BE(n, o)`: the two big-endian bytes. -/
def writeUInt16BE (n : Nat) : List Nat := [n / 256 % 256, n % 256]

/-- `buffer.writeUInt32BE(n, o)`: the four big-endian bytes. -/
def writeUInt32BE (n : Nat) : List Nat :=
  [n / 16777216 % 256, n / 65536 % 256, n / 256 % 256, n % 256]

/-- `headBuffer.write(s, off, len, enc)`: writes `min len s.length` bytes
(each char code mod 256). Bytes of the field the string does not cover stay
whatever `allocUnsafe` left there; they are modelled as 0 (on all paths the
claims exercise, the string exactly fills the field). -/
def bufWrite (s : List Nat) (len : Nat) : List Nat :=
  (s.map (fun c => c % 256)).take len ++ List.replicate (len - s.length) 0

/-- Header size before any fragment block: `MIN_HEADER_SIZE` plus the session
block (encode lines 867, 876). -/
def Message.headerSizeOf (m : Message) : Nat :=
  MIN_HEADER_SIZE + if m.sessionId.isSome then SESSION_SIZE else 0

/-- The fixed part of the packet built by `Message.prototype.encode`
(lines 914-927): signature, 0x00, flags, type, command, id, optional session. -/
def mkHeadBase (m : Message) (flags : Nat) : List Nat :=
  bufWrite m.protocolSignature 3 ++ [0] ++ writeUInt16BE flags ++ [m.type % 256] ++
  bufWrite m.command 4 ++ writeUInt32BE m.id ++
  (match m.sessionId with
   | some s => bufWrite s SESSION_SIZE
   | none => [])

/-- `Math.ceil(a / b)` on naturals (for `b > 0`). -/
def jsCeilDiv (a b : Nat) : Nat := (a + b - 1) / b

/-- `fragments` chosen by encode (line 904): `Math.ceil(len / maxDataSize)`. -/
def fragmentCount (len maxDataSize : Nat) : Nat := jsCeilDiv len maxDataSize

/-- `fragmentSize` chosen by encode (line 905): `Math.ceil(len / fragments)`. -/
def fragmentSizeOf (len maxDataSize : Nat) : Nat := jsCeilDiv len (fragmentCount len maxDataSize)

/-- The packet-splitting loop of `Message.prototype.encode` (lines 941-955):
one buffer per fragment, all sharing the same head except the fragment index;
fragment `i` carries `dataBuffer.slice(fragmentSize*i, fragmentSize*(i+1))`. -/
def encodeFragmentBuffers (m : Message) (dataBuf : List Nat) (maxDataSize : Nat) :
    List (List Nat) :=
  (List.range (fragmentCount dataBuf.length maxDataSize)).map fun i =>
    mkHeadBase m (mkFlags m.wantAck m.isAck m.isNack true true
      m.compressedData m.encryptedData m.sessionId.isSome) ++
    writeUInt16BE i ++ writeUInt16BE (fragmentCount dataBuf.length maxDataSize) ++
    (dataBuf.drop (fragmentSizeOf dataBuf.length maxDataSize * i)).take
      (fragmentSizeOf dataBuf.length maxDataSize)

/-- `Message.prototype.encode` (lines 866-956). Returns the list of datagram
buffers, or the configuration error thrown at line 901. `maxBufferSize` is an
`Int` because callers pass `maxPacketSize - UDP_IP_HEADER_SIZE`, which can be
negative. In the fragmentation branch `fragments ≥ 2` always holds (the
payload exceeds `maxDataSize`), so the source's `fragments === 1` early return
is unreachable there and the fragment loop is taken. -/
def Message.encode (m : Message) (maxBufferSize : Int) : Except String (List (List Nat)) :=
  match m.dataBuffer with
  | some dataBuf =>
    if 0 < maxBufferSize ∧ ((m.headerSizeOf + dataBuf.length : Nat) : Int) > maxBufferSize then
      -- fragmentation (lines 891-906): FRAGMENTED set, header grows by 4
      if maxBufferSize - ((m.headerSizeOf + 4 : Nat) : Int) ≤ (MIN_DATA_FRAGMENT_SIZE : Int) then
        Except.error "Message#encode(): maxBufferSize is too small"
      else
        Except.ok (encodeFragmentBuffers m dataBuf
          (maxBufferSize - ((m.headerSizeOf + 4 : Nat) : Int)).toNat)
    else
      Except.ok [mkHeadBase m (mkFlags m.wantAck m.isAck m.isNack true false
        m.compressedData m.encryptedData m.sessionId.isSome) ++ dataBuf]
  | none =>
    if m.fragmented && (m.isAck || m.isNack) then
      -- ack/nack fragment echo (lines 909-912, 929-933)
      Except.ok [mkHeadBase m (mkFlags m.wantAck m.isAck m.isNack false true false false
        m.sessionId.isSome) ++ writeUInt16BE m.fragmentIndex ++ writeUInt16BE m.fragments]
    else
      Except.ok [mkHeadBase m (mkFlags m.wantAck m.isAck m.isNack false false false false
        m.sessionId.isSome)]

/-- `Message.decode` is a static method (line 737), so inside it `this` is the
`Message` constructor function itself, whose `enableSession` property is never
assigned: `this.enableSession` is the JS `undefined`, modelled as `none`
(truthiness `false`). The engine's own `enableSession` option is not visible
here at all. -/
def Message.staticEnableSession : Option Bool := none

/-- The `expectedSize` accumulated by `Message.decode` (lines 741-784):
15 bytes plus the optional session and fragment blocks. -/
def decodeExpectedSize (flags : Nat) : Nat :=
  MIN_HEADER_SIZE + (if hasFlag flags FLAG_SESSION then SESSION_SIZE else 0) +
  (if hasFlag flags FLAG_FRAGMENTED then 4 else 0)

/-- The `Message` object that `Message.decode` fills in once all checks have
passed (lines 826-858): fields are read off the buffer, driven by `flags`.
The pointer starts at `MIN_HEADER_SIZE` and advances over the session block
and the fragment block; `fragments` gets `readUInt16BE(ptr+2) || 1`. -/
def Message.decodeMessage (buffer : List Nat) (sender : Endpoint)
    (protocolSignature : List Nat) (flags : Nat) : Message :=
  { sender := some sender, protocolSignature := protocolSignature,
    type := buffer.getD 6 0,
    command := ((buffer.drop 7).take 4).map (fun c => c % 128),
    id := readUInt32BE buffer 11,
    wantAck := hasFlag flags FLAG_WANT_ACK,
    isAck := hasFlag flags FLAG_IS_ACK,
    isNack := hasFlag flags FLAG_IS_NACK,
    fragmented := hasFlag flags FLAG_FRAGMENTED,
    compressedData := hasFlag flags FLAG_COMPRESSED_DATA,
    encryptedData := hasFlag flags FLAG_ENCRYPTED_DATA,
    sessionId := if hasFlag flags FLAG_SESSION then
        some ((buffer.drop MIN_HEADER_SIZE).take SESSION_SIZE)
      else none,
    fragmentIndex := if hasFlag flags FLAG_FRAGMENTED then
        readUInt16BE buffer
          (MIN_HEADER_SIZE + (if hasFlag flags FLAG_SESSION then SESSION_SIZE else 0))
      else 0,
    fragments := if hasFlag flags FLAG_FRAGMENTED then
        (if readUInt16BE buffer
              (MIN_HEADER_SIZE + (if hasFlag flags FLAG_SESSION then SESSION_SIZE else 0) + 2) = 0
          then 1
          else readUInt16BE buffer
            (MIN_HEADER_SIZE + (if hasFlag flags FLAG_SESSION then SESSION_SIZE else 0) + 2))
      else 1,
    dataBuffer := if hasFlag flags FLAG_HAS_DATA then
        some (buffer.drop (MIN_HEADER_SIZE +
          (if hasFlag flags FLAG_SESSION then SESSION_SIZE else 0) +
          (if hasFlag flags FLAG_FRAGMENTED then 4 else 0)))
      else none }

/-- The type and command checks of `Message.decode` (lines 810-822), shared by
the data and no-data paths, followed by the message construction. The command
is read with `buffer.toString('ascii', 7, 11)`, which unsets the high bit of
each byte (`% 128`). Line 819 rejects when `supportedCommands.has(command)` —
with no negation. -/
def Message.decodeTail (buffer : List Nat) (sender : Endpoint) (protocolSignature : List Nat)
    (supportedCommands : Option (List (List Nat))) (flags : Nat) : Option Message :=
  if ¬ (TYPES.contains (buffer.getD 6 0)) then none else
  if (match supportedCommands with
      | some sc => sc.contains (((buffer.drop 7).take 4).map (fun c => c % 128))
      | none => false) then none else
  some (Message.decodeMessage buffer sender protocolSignature flags)

/-- `Message.decode` (lines 737-861). Returns `none` where the source logs an
error and returns `null`. The source's local `flags` is
`readUInt16BE buffer 4`, inlined at every use. -/
def Message.decode (buffer : List Nat) (sender : Endpoint) (protocolSignature : List Nat)
    (supportedCommands : Option (List (List Nat))) : Option Message :=
  if buffer.length < MIN_HEADER_SIZE then none else
  if buffer.getD 3 0 ≠ 0 then none else
  if ¬ (buffer.getD 0 0 = protocolSignature.getD 0 0 ∧
        buffer.getD 1 0 = protocolSignature.getD 1 0 ∧
        buffer.getD 2 0 = protocolSignature.getD 2 0) then none else
  if hasFlag (readUInt16BE buffer 4) FLAG_WANT_ACK &&
      (hasFlag (readUInt16BE buffer 4) FLAG_IS_ACK ||
        hasFlag (readUInt16BE buffer 4) FLAG_IS_NACK) then none else
  -- lines 775-782: the reject is on `this.enableSession`, which is undefined
  if hasFlag (readUInt16BE buffer 4) FLAG_SESSION &&
      Message.staticEnableSession.getD false then none else
  if hasFlag (readUInt16BE buffer 4) FLAG_HAS_DATA then
    if hasFlag (readUInt16BE buffer 4) FLAG_IS_ACK ||
        hasFlag (readUInt16BE buffer 4) FLAG_IS_NACK then none else
    if buffer.length ≤ decodeExpectedSize (readUInt16BE buffer 4) then none else
    Message.decodeTail buffer sender protocolSignature supportedCommands (readUInt16BE buffer 4)
  else
    if hasFlag (readUInt16BE buffer 4) FLAG_COMPRESSED_DATA ||
        hasFlag (readUInt16BE buffer 4) FLAG_ENCRYPTED_DATA then none else
    if buffer.length ≠ decodeExpectedSize (readUInt16BE buffer 4) then none else
    Message.decodeTail buffer sender protocolSignature supportedCommands (readUInt16BE buffer 4)

/-- `Message.prototype.toAck` (lines 581-597): fresh message echoing
signature/type/command/id with IS_ACK, plus the fragment block for fragments. -/
def Message.toAck (m : Message) : Message :=
  if m.fragmented then
    { protocolSignature := m.protocolSignature, isAck := true, type := m.type,
      command := m.command, id := m.id, fragmented := true,
      fragmentIndex := m.fragmentIndex, fragments := m.fragments }
  else
    { protocolSignature := m.protocolSignature, isAck := true, type := m.type,
      command := m.command, id := m.id }

/-- The sender endpoint, as used by the id helpers' default argument
`endpoint = this.sender`; receive-path messages always carry a sender. -/
def Message.senderOrDefault (m : Message) : Endpoint := m.sender.getD { address := "", port := 0 }

/-- One char code as a JS string. -/
def charOf (c : Nat) : String := String.mk [Char.ofNat c]

/-- A char-code list as a JS string. -/
def codesToString (l : List Nat) : String := String.mk (l.map Char.ofNat)

/-- `Message.prototype.getReassemblyId` (lines 651-653). -/
def Message.getReassemblyId (m : Message) (endpoint : Endpoint) : String :=
  "[" ++ endpoint.address ++ "]:" ++ toString endpoint.port ++ ":" ++
  charOf m.type ++ codesToString m.command ++ toString m.id ++ "/" ++ toString m.fragments

/-- `RESPONSE_TYPE_FOR` (lines 615-618): `Q ↦ R`, `q ↦ r`, otherwise identity. -/
def RESPONSE_TYPE_FOR (t : Nat) : Nat := if t = 81 then 82 else if t = 113 then 114 else t

/-- `Message.prototype.getResponseId` (lines 620-623). -/
def Message.getResponseId (m : Message) (endpoint : Endpoint) : String :=
  "[" ++ endpoint.address ++ "]:" ++ toString endpoint.port ++ ":" ++
  charOf (RESPONSE_TYPE_FOR m.type) ++ codesToString m.command ++ toString m.id

/-- `Message.reassemble` (lines 627-647): all other fields keep the
`new Message()` defaults; `first` is `messageList[0]`. -/
def Message.reassemble (messageList : List Message) : Message :=
  { reassembled := true,
    sender := messageList.headI.sender,
    protocolSignature := messageList.headI.protocolSignature,
    type := messageList.headI.type,
    command := messageList.headI.command,
    id := messageList.headI.id,
    compressedData := messageList.headI.compressedData,
    encryptedData := messageList.headI.encryptedData,
    sessionId := messageList.headI.sessionId,
    dataBuffer := some ((messageList.map (fun msg => msg.dataBuffer.getD [])).flatten) }

/-- The key-value map behaviour of `lruKit.LRUCacheMap` (age-based eviction is
time-driven and not part of any claim): lookup. -/
def cacheGet {α : Type} (cache : List (String × α)) (key : String) : Option α :=
  match cache.find? (fun e => e.1 == key) with
  | some e => some e.2
  | none => none

/-- `LRUCacheMap#set`: insert or overwrite. -/
def cacheSet {α : Type} (cache : List (String × α)) (key : String) (value : α) :
    List (String × α) :=
  match cache with
  | [] => [(key, value)]
  | e :: rest => if e.1 == key then (key, value) :: rest else e :: cacheSet rest key value

/-- `LRUCacheMap#delete`. -/
def cacheDelete {α : Type} (cache : List (String × α)) (key : String) : List (String × α) :=
  match cache with
  | [] => []
  | e :: rest => if e.1 == key then rest else e :: cacheDelete rest key

/-- Lines 254-265 of `UniProtocol.prototype.receive`: bound-check the fragment
index, store the fragment into its slot (the source mutates the cached array
in place; re-storing it under the same key models that), and when every slot
is filled return the reassembled message. The source never deletes the entry. -/
def receiveFragmentStore (cache : List (String × List (Option Message))) (message : Message)
    (reassembly : List (Option Message)) :
    List (String × List (Option Message)) × Option Message :=
  if reassembly.length ≤ message.fragmentIndex then (cache, none)
  else if (reassembly.set message.fragmentIndex (some message)).all
      (fun slot => slot.isSome) then
    (cacheSet cache (message.getReassemblyId message.senderOrDefault)
        (reassembly.set message.fragmentIndex (some message)),
      some (Message.reassemble
        ((reassembly.set message.fragmentIndex (some message)).filterMap id)))
  else
    (cacheSet cache (message.getReassemblyId message.senderOrDefault)
        (reassembly.set message.fragmentIndex (some message)), none)

/-- The fragment-handling part of `UniProtocol.prototype.receive`
(lines 246-265), reached for a decoded, non-ack, fragmented message: look up
the reassembly entry, creating (and caching) a fresh `fragments`-slot vector
when absent, then store the fragment. -/
def receiveFragmentStep (pendingReassemblies : List (String × List (Option Message)))
    (message : Message) :
    List (String × List (Option Message)) × Option Message :=
  match cacheGet pendingReassemblies (message.getReassemblyId message.senderOrDefault) with
  | some r => receiveFragmentStore pendingReassemblies message r
  | none => receiveFragmentStore
      (cacheSet pendingReassemblies (message.getReassemblyId message.senderOrDefault)
        (List.replicate message.fragments none))
      message (List.replicate message.fragments none)

/-- Outcome of `UniProtocol.prototype.receiveFullMessage` (lines 271-289):
the updated pending-response cache, the waiter resolved with the message (if
any), and the two emitted events. -/
structure FullMessageOutcome where
  pendingResponses : List (String × Nat)
  resolvedResponse : Option Nat
  emittedMessage : Bool
  typedEventName : String
deriving Repr, DecidableEq

/-- `UniProtocol.prototype.receiveFullMessage` (lines 271-289); pending
response waiters (promises) are abstract tokens (`Nat`). -/
def receiveFullMessage (pendingResponses : List (String × Nat)) (message : Message) :
    FullMessageOutcome :=
  if message.type = 82 then  -- 'R'
    match cacheGet pendingResponses (message.getResponseId message.senderOrDefault) with
    | some waiter =>
      { pendingResponses :=
          cacheDelete pendingResponses (message.getResponseId message.senderOrDefault),
        resolvedResponse := some waiter, emittedMessage := true,
        typedEventName := charOf message.type ++ codesToString message.command }
    | none =>
      { pendingResponses := pendingResponses, resolvedResponse := none,
        emittedMessage := true,
        typedEventName := charOf message.type ++ codesToString message.command }
  else
    { pendingResponses := pendingResponses, resolvedResponse := none, emittedMessage := true,
      typedEventName := charOf message.type ++ codesToString message.command }

/-- Discrete-time model of the retry timers of `UniProtocol.prototype.sendFragment`
(lines 380-418) when no ack ever arrives and `sendBuffer` completes
instantaneously: the k-th retry timer fires at `k * ackResendTimeout`. The
forget timer (armed first, at time 0) rejects the pending ack at
`ackForgetTimeout`; its `finally` sets `done` and clears the retry timer, so a
retry due at or after that instant performs no send (Node runs same-expiry
timers in arming order and drains microtasks between timer callbacks). -/
def retrySendTimes (ackResendTimeout ackForgetTimeout : Nat) : Nat → Nat → List Nat
  | 0, _ => []
  | Nat.succ n, k =>
    if k * ackResendTimeout < ackForgetTimeout then
      k * ackResendTimeout :: retrySendTimes ackResendTimeout ackForgetTimeout n (k + 1)
    else []

/-- All send-attempt times of one fragment sent with `want_ack` and `retries`
retries, when no ack arrives: the initial send at time 0 (line 381) plus the
retry sends. -/
def sendAttemptTimes (retries ackResendTimeout ackForgetTimeout : Nat) : List Nat :=
  0 :: retrySendTimes ackResendTimeout ackForgetTimeout retries 1

deriving instance DecidableEq for Except

-- Basic sanity checks of the embedding on concrete frames.

/-- Scenario S1 of the spec: 15-byte `C/ping/1` frame decodes. -/
example :
    Message.decode [85, 78, 80, 0, 0, 0, 67, 112, 105, 110, 103, 0, 0, 0, 1]
      { address := "10.0.0.1", port := 4321 } [85, 78, 80] none =
    some { sender := some { address := "10.0.0.1", port := 4321 },
           protocolSignature := [85, 78, 80], type := 67,
           command := [112, 105, 110, 103], id := 1 } := by decide

example :
    Message.encode { type := 67, command := [112, 105, 110, 103], id := 1 } 0 =
    Except.ok [[85, 78, 80, 0, 0, 0, 67, 112, 105, 110, 103, 0, 0, 0, 1]] := by decide

-- ## Helper lemmas

theorem cacheGet_cacheSet_self {α : Type} (c : List (String × α)) (k : String) (v : α) :
    cacheGet (cacheSet c k v) k = some v := by
  induction c with
  | nil => simp [cacheGet, cacheSet]
  | cons e rest ih =>
    by_cases h : e.1 = k
    · simp [cacheSet, cacheGet, h]
    · simp only [cacheSet, cacheGet] at ih ⊢
      rw [if_neg (by simpa using h)]
      rw [List.find?_cons_of_neg _ (by simpa using h)]
      exact ih

theorem hasFlag_mkFlags (w a n h f c e s : Bool) :
    hasFlag (mkFlags w a n h f c e s) FLAG_WANT_ACK = w ∧
    hasFlag (mkFlags w a n h f c e s) FLAG_IS_ACK = a ∧
    hasFlag (mkFlags w a n h f c e s) FLAG_IS_NACK = n ∧
    hasFlag (mkFlags w a n h f c e s) FLAG_HAS_DATA = h ∧
    hasFlag (mkFlags w a n h f c e s) FLAG_FRAGMENTED = f ∧
    hasFlag (mkFlags w a n h f c e s) FLAG_COMPRESSED_DATA = c ∧
    hasFlag (mkFlags w a n h f c e s) FLAG_ENCRYPTED_DATA = e ∧
    hasFlag (mkFlags w a n h f c e s) FLAG_SESSION = s := by
  cases w <;> cases a <;> cases n <;> cases h <;> cases f <;> cases c <;> cases e <;> cases s <;>
    exact ⟨rfl, rfl, rfl, rfl, rfl, rfl, rfl, rfl⟩

theorem mkFlags_bytes (w a n h f c e s : Bool) :
    mkFlags w a n h f c e s / 256 % 256 * 256 + mkFlags w a n h f c e s % 256 =
      mkFlags w a n h f c e s := by
  cases w <;> cases a <;> cases n <;> cases h <;> cases f <;> cases c <;> cases e <;> cases s <;> rfl

-- ## Shared concrete inputs

/-- A concrete peer endpoint. -/
def epA : Endpoint := { address := "10.0.0.1", port := 4321 }

/-- A valid 15-byte frame: "UNP" 0x00, flags 0, type 'C', command "ping", id 1. -/
def pingFrame : List Nat := [85, 78, 80, 0, 0, 0, 67, 112, 105, 110, 103, 0, 0, 0, 1]

/-- The message `pingFrame` decodes to. -/
def pingMessage : Message :=
  { sender := some epA, protocolSignature := [85, 78, 80], type := 67,
    command := [112, 105, 110, 103], id := 1 }

-- ## C2 — supportedCommands allow-list (code bug: the negation is missing)

/-- C2: `Message.decode` (line 819) rejects a frame when `supportedCommands`
*contains* its command and accepts it when it does not — the exact inverse of
the allow-list semantics the claim states. On the same otherwise-valid frame
with command "ping": an allow-list containing "ping" makes decode return a
rejection, and an allow-list containing only "nope" lets the frame pass.
(The rejection branch even logs "unknown command" for the command that *is*
in the set, so the code contradicts its own log message.) -/
theorem C2_allowlist_inverted :
    Message.decode pingFrame epA [85, 78, 80] (some [[112, 105, 110, 103]]) = none ∧
    Message.decode pingFrame epA [85, 78, 80] (some [[110, 111, 112, 101]]) =
      some pingMessage := by decide

-- ## C4 — SESSION-flagged packets are never rejected (code bug)

/-- A 23-byte frame with flags = 0x0080 (SESSION): "UNP" 0x00, type 'C',
command "ping", id 1, sessionId bytes 01..08. -/
def sessionFrame : List Nat :=
  [85, 78, 80, 0, 0, 128, 67, 112, 105, 110, 103, 0, 0, 0, 1, 1, 2, 3, 4, 5, 6, 7, 8]

/-- C4: a SESSION-flagged frame is accepted by `Message.decode`, not rejected.
The guard (lines 775-782) tests `this.enableSession` inside the *static*
`Message.decode`, where `this` is the `Message` constructor function and the
property is always `undefined`, so the reject branch is unreachable — whatever
the engine's `enable_session` option is (decode is not even passed it). The
condition is also inverted (it would reject when truthy, while its own log
message says sessions "are disabled on this server"). -/
theorem C4_session_never_rejected :
    Message.decode sessionFrame epA [85, 78, 80] none =
      some { pingMessage with sessionId := some [1, 2, 3, 4, 5, 6, 7, 8] } ∧
    Message.staticEnableSession.getD false = false := by decide

-- ## C6 — decode does not enforce fragment_index < fragments_total

/-- A 19-byte frame with flags = 16 (FRAGMENTED, no data): fragment_index 5,
fragments_total 2. -/
def badFragmentFrame : List Nat :=
  [85, 78, 80, 0, 0, 16, 67, 112, 105, 110, 103, 0, 0, 0, 1, 0, 5, 0, 2]

/-- The message `badFragmentFrame` decodes to. -/
def badFragmentMessage : Message :=
  { pingMessage with fragmented := true, fragmentIndex := 5, fragments := 2 }

/-- C6 counterexample: `Message.decode` accepts a frame whose fragment_index
(5) is not below its fragments_total (2); lines 849-854 read both fields
without any comparison (the bound is only checked later, against the
reassembly entry, in `UniProtocol.prototype.receive` line 254). -/
theorem C6_counterexample :
    Message.decode badFragmentFrame epA [85, 78, 80] none = some badFragmentMessage ∧
    badFragmentMessage.fragments ≤ badFragmentMessage.fragmentIndex := by decide

/-- C6 (amended): every message returned by `Message.decode` satisfies
`fragments_total ≥ 1` (the `|| 1` at line 852), and the full invariant
`fragment_index < fragments_total` holds whenever the message is not
fragmented; decode does not enforce it for fragmented frames. -/
theorem C6_decode_fragment_bounds (buffer : List Nat) (sender : Endpoint)
    (protocolSignature : List Nat) (supportedCommands : Option (List (List Nat))) (m : Message)
    (h : Message.decode buffer sender protocolSignature supportedCommands = some m) :
    1 ≤ m.fragments ∧ (m.fragmented = false → m.fragmentIndex < m.fragments) := by
  unfold Message.decode at h
  repeat' split at h
  all_goals try exact Option.noConfusion h
  all_goals unfold Message.decodeTail at h
  all_goals repeat' split at h
  all_goals try exact Option.noConfusion h
  all_goals rw [Option.some_inj] at h
  all_goals subst h
  all_goals unfold Message.decodeMessage
  all_goals dsimp only
  all_goals refine ⟨?_, fun hf => ?_⟩
  all_goals try (simp [hf]; done)
  all_goals repeat' split
  all_goals omega

/-- Witness for `C6_decode_fragment_bounds` at the concrete frame `pingFrame`. -/
theorem C6_decode_fragment_bounds_witness :
    Message.decode pingFrame epA [85, 78, 80] none = some pingMessage ∧
    1 ≤ pingMessage.fragments ∧
    (pingMessage.fragmented = false → pingMessage.fragmentIndex < pingMessage.fragments) :=
  ⟨by decide, C6_decode_fragment_bounds pingFrame epA [85, 78, 80] none pingMessage (by decide)⟩

-- ## C9 — ack echo

/-- C9: the ack message built by `Message.prototype.toAck` (which
`UniProtocol.prototype.sendAckFor` encodes and sends when a received message
carries WANT_ACK and `ignoreWantedAck` is false, lines 237-238 and 423-428)
echoes the protocol signature, type, command and id, has IS_ACK set, asks for
no ack and carries no payload; and for a fragmented original it carries
`fragmented = true` with the original's fragment_index and fragments_total. -/
theorem C9_ack_echo (m : Message) :
    (m.toAck).protocolSignature = m.protocolSignature ∧
    (m.toAck).type = m.type ∧
    (m.toAck).command = m.command ∧
    (m.toAck).id = m.id ∧
    (m.toAck).isAck = true ∧
    (m.toAck).wantAck = false ∧
    (m.toAck).dataBuffer = none ∧
    (m.fragmented = true →
      (m.toAck).fragmented = true ∧
      (m.toAck).fragmentIndex = m.fragmentIndex ∧
      (m.toAck).fragments = m.fragments) := by
  unfold Message.toAck
  by_cases hf : m.fragmented = true
  · simp [hf]
  · simp [hf]

/-- A concrete fragmented message asking for an ack. -/
def mC9 : Message :=
  { sender := some epA, type := 67, command := [112, 105, 110, 103], id := 7,
    wantAck := true, fragmented := true, fragmentIndex := 2, fragments := 5 }

/-- Witness for `C9_ack_echo` at the concrete fragmented message `mC9`. -/
theorem C9_ack_echo_witness :
    (mC9.toAck).isAck = true ∧ (mC9.toAck).command = mC9.command ∧
    (mC9.toAck).fragmentIndex = mC9.fragmentIndex :=
  ⟨(C9_ack_echo mC9).2.2.2.2.1, (C9_ack_echo mC9).2.2.1,
    ((C9_ack_echo mC9).2.2.2.2.2.2.2 rfl).2.1⟩

-- ## C10 — a response processed before the pending entry is registered is stray

/-- C10: `UniProtocol.prototype.sendQuery` (lines 323-349) performs
`await this.sendMessage(..)` — which, for a query sent with want_ack, resolves
only after every per-fragment ack has resolved — and only then executes
`this.pendingResponses.set(responseId, responsePromise)` (line 338). A
response datagram processed by `receiveFullMessage` before that registration
therefore finds no pending-response entry under its response id; this theorem
shows that in that case nothing is resolved (the stray-response branch,
line 283) and the pending-response cache is left unchanged, so such a response
can never resolve the query's completion handle. -/
theorem C10_stray_response (pendingResponses : List (String × Nat)) (m : Message)
    (h : cacheGet pendingResponses (m.getResponseId m.senderOrDefault) = none) :
    (receiveFullMessage pendingResponses m).resolvedResponse = none ∧
    (receiveFullMessage pendingResponses m).pendingResponses = pendingResponses := by
  unfold receiveFullMessage
  by_cases ht : m.type = 82
  · simp only [ht, if_pos rfl]
    rw [show Message.getResponseId { m with type := m.type } = m.getResponseId from rfl] at h
    simp [h]
  · simp [ht]

/-- A concrete Response message (type 'R' = 82). -/
def mC10 : Message :=
  { sender := some epA, type := 82, command := [112, 105, 110, 103], id := 9 }

/-- Witness for `C10_stray_response`: with an empty pending-response cache the
response resolves nothing. -/
theorem C10_stray_response_witness :
    cacheGet ([] : List (String × Nat)) (mC10.getResponseId mC10.senderOrDefault) = none ∧
    (receiveFullMessage [] mC10).resolvedResponse = none :=
  ⟨rfl, (C10_stray_response [] mC10 rfl).1⟩

-- ## C7 — bounded retries

/-- C7 counterexample: with the default timeouts (`ackResendTimeout = 200`,
`ackForgetTimeout = 2000`) and `retries = 11`, the forget timer rejects the
pending ack at 2000 ms and its `finally` clears the retry timer, so only the
retries scheduled strictly before 2000 ms fire: 10 sends happen in total, not
the 12 the claim requires for every `N`. -/
theorem C7_counterexample : (sendAttemptTimes 11 200 2000).length ≠ 11 + 1 := by decide

theorem retrySendTimes_spec (R F : Nat) :
    ∀ n k, (k + n) * R < F + R →
      (retrySendTimes R F n k).length = n ∧ ∀ t ∈ retrySendTimes R F n k, t < F := by
  intro n
  induction n with
  | zero => intro k hk; simp [retrySendTimes]
  | succ n ih =>
    intro k hk
    have hsum : (k + (n + 1)) * R = (k + n) * R + R := by ring
    rw [hsum] at hk
    have hkn : (k + n) * R < F := Nat.lt_of_add_lt_add_right hk
    have hkR : k * R < F :=
      Nat.lt_of_le_of_lt (Nat.mul_le_mul_right R (Nat.le_add_right k n)) hkn
    have hrec := ih (k + 1) (by
      have : (k + 1 + n) * R = (k + n) * R + R := by ring
      rw [this]
      exact Nat.add_lt_add_right hkn R)
    constructor
    · simp [retrySendTimes, hkR, hrec.1]
    · intro t ht
      simp only [retrySendTimes, if_pos hkR, List.mem_cons] at ht
      rcases ht with h | h
      · exact h ▸ hkR
      · exact hrec.2 t h

/-- C7 (amended): for every retry count `N` with `N * ack_resend_timeout <
ack_forget_timeout`, a fragment sent with want_ack and no matching ack gets
exactly `N + 1` send attempts (the initial send plus `N` resends spaced by
`ack_resend_timeout`), all strictly before the `ack_forget_timeout` deadline at
which the pending ack is rejected; no send happens at or after that deadline
(in the model a retry fires only at a time `< F`, reflecting the `done` flag
set by the rejection). -/
theorem C7_bounded_retries (retries R F : Nat) (h : retries * R < F) :
    (sendAttemptTimes retries R F).length = retries + 1 ∧
    ∀ t ∈ sendAttemptTimes retries R F, t < F := by
  have hs := retrySendTimes_spec R F retries 1 (by
    have : (1 + retries) * R = retries * R + R := by ring
    rw [this]
    exact Nat.add_lt_add_right h R)
  refine ⟨by simp [sendAttemptTimes, hs.1], fun t ht => ?_⟩
  rcases List.mem_cons.mp ht with h0 | hmem
  · subst h0; omega
  · exact hs.2 t hmem

/-- Witness for `C7_bounded_retries` at `retries = 2` with the default
timeouts: 3 send attempts, all before 2000 ms. -/
theorem C7_bounded_retries_witness :
    2 * 200 < 2000 ∧ (sendAttemptTimes 2 200 2000).length = 2 + 1 :=
  ⟨by decide, (C7_bounded_retries 2 200 2000 (by decide)).1⟩

-- ## C3 — reassembly completion keeps the cache entry (claim corrected)

/-- First fragment (index 0 of 2) of a `C/ping/1` message. -/
def msgFragA : Message :=
  { sender := some epA, protocolSignature := [85, 78, 80], type := 67,
    command := [112, 105, 110, 103], id := 1, fragmented := true, fragmentIndex := 0,
    fragments := 2, dataBuffer := some [10, 11] }

/-- Second fragment (index 1 of 2). -/
def msgFragB : Message := { msgFragA with fragmentIndex := 1, dataBuffer := some [12] }

/-- The pending-reassembly cache after the first fragment arrived. -/
def pendingAfterA : List (String × List (Option Message)) :=
  (receiveFragmentStep [] msgFragA).1

/-- The cache after the second fragment completed the reassembly: the filled
entry is still there. -/
def pendingAfterB : List (String × List (Option Message)) :=
  [("[10.0.0.1]:4321:Cping1/2", [some msgFragA, some msgFragB])]

/-- The message reassembled from both fragments. -/
def reassembledAB : Message :=
  { reassembled := true, sender := some epA, protocolSignature := [85, 78, 80], type := 67,
    command := [112, 105, 110, 103], id := 1, dataBuffer := some [10, 11, 12] }

/-- C3 counterexample: after the reassembly completes and the reassembled
message is delivered, the entry is NOT removed from `pendingReassemblies`
(lines 246-265 contain no `delete`), so a duplicate of the last fragment
arriving afterwards finds the completed entry and triggers a second delivery
of the whole message. -/
theorem C3_counterexample :
    receiveFragmentStep pendingAfterA msgFragB = (pendingAfterB, some reassembledAB) ∧
    cacheGet pendingAfterB (msgFragB.getReassemblyId msgFragB.senderOrDefault) =
      some [some msgFragA, some msgFragB] ∧
    (receiveFragmentStep pendingAfterB msgFragB).2 = some reassembledAB := by decide

/-- C3 (amended): when the arriving fragment fills the last empty slot, the
engine delivers `Message.reassemble` of the filled slots — which concatenates
the fragment payload buffers in index order and inherits
type/command/id/compression/encryption/session from the first fragment and
sets `reassembled = true` — but the filled entry REMAINS in
`pendingReassemblies` (it is only discarded by age-based eviction), so a
duplicate fragment arriving afterwards still finds the completed entry. -/
theorem C3_reassembly (pending : List (String × List (Option Message))) (m r : Message)
    (p2 : List (String × List (Option Message)))
    (h : receiveFragmentStep pending m = (p2, some r)) :
    ∃ slots, cacheGet p2 (m.getReassemblyId m.senderOrDefault) = some slots ∧
      slots.all (fun slot => slot.isSome) = true ∧
      r = Message.reassemble (slots.filterMap id) ∧
      (∀ first rest, slots.filterMap id = first :: rest →
        r.reassembled = true ∧ r.type = first.type ∧ r.command = first.command ∧
        r.id = first.id ∧ r.compressedData = first.compressedData ∧
        r.encryptedData = first.encryptedData ∧ r.sessionId = first.sessionId ∧
        r.dataBuffer =
          some (((slots.filterMap id).map (fun frag => frag.dataBuffer.getD [])).flatten)) := by
  unfold receiveFragmentStep receiveFragmentStore at h
  repeat' split at h
  all_goals rw [Prod.mk.injEq] at h
  all_goals obtain ⟨h1, h2⟩ := h
  all_goals try exact Option.noConfusion h2
  all_goals rw [Option.some_inj] at h2
  all_goals subst h1
  all_goals subst h2
  all_goals refine ⟨_, cacheGet_cacheSet_self _ _ _, by assumption, rfl, ?_⟩
  all_goals intro first rest hfr
  all_goals rw [Message.reassemble, hfr]
  all_goals exact ⟨rfl, rfl, rfl, rfl, rfl, rfl, rfl, rfl⟩

/-- Witness for `C3_reassembly` at the concrete two-fragment run. -/
theorem C3_reassembly_witness :
    cacheGet pendingAfterB (msgFragB.getReassemblyId msgFragB.senderOrDefault) ≠ none := by
  obtain ⟨slots, hs, -, -, -⟩ :=
    C3_reassembly pendingAfterA msgFragB reassembledAB pendingAfterB (by decide)
  simp [hs]

-- ## C8 — encode configuration error, exactly when

/-- C8: `Message.prototype.encode` raises its configuration error (line 901)
exactly when a payload is present, `maxBufferSize` is positive, the packet
would not fit (`headerSize + payload.length > maxBufferSize`, with
`headerSize` the pre-fragmentation header of line 867/876), and
`maxBufferSize - (headerSize + 4) ≤ MIN_DATA_FRAGMENT_SIZE` (the header now
including the 4 fragment bytes). In particular a message that fits in a
single packet — or has no payload, or a non-positive `maxBufferSize` — never
raises it. -/
theorem C8_encode_config_error (m : Message) (maxBufferSize : Int) :
    (∃ e, m.encode maxBufferSize = Except.error e) ↔
    (∃ d, m.dataBuffer = some d ∧ 0 < maxBufferSize ∧
      ((m.headerSizeOf + d.length : Nat) : Int) > maxBufferSize ∧
      maxBufferSize - ((m.headerSizeOf + 4 : Nat) : Int) ≤ (MIN_DATA_FRAGMENT_SIZE : Int)) := by
  rcases hd : m.dataBuffer with _ | d
  · simp only [Message.encode, hd]
    constructor
    · rintro ⟨e, he⟩
      split at he <;> exact Except.noConfusion he
    · rintro ⟨d2, hd2, -⟩
      exact Option.noConfusion hd2
  · simp only [Message.encode, hd]
    constructor
    · rintro ⟨e, he⟩
      split at he
      · split at he
        · rename_i hcond hsmall
          exact ⟨d, rfl, hcond.1, hcond.2, hsmall⟩
        · exact Except.noConfusion he
      · exact Except.noConfusion he
    · rintro ⟨d2, hd2, hpos, hbig, hsmall⟩
      obtain rfl : d = d2 := Option.some_inj.mp hd2
      rw [if_pos ⟨hpos, hbig⟩, if_pos hsmall]
      exact ⟨_, rfl⟩

-- ## C5 — fragmentation (corrected: requires maxDataSize > MIN_DATA_FRAGMENT_SIZE)

theorem bufWrite_length (s : List Nat) (len : Nat) : (bufWrite s len).length = len := by
  simp [bufWrite]
  omega

theorem mkHeadBase_length (m : Message) (flags : Nat) :
    (mkHeadBase m flags).length = m.headerSizeOf := by
  rcases hs : m.sessionId with _ | s <;>
    simp [mkHeadBase, hs, bufWrite_length, writeUInt16BE, writeUInt32BE,
      Message.headerSizeOf, MIN_HEADER_SIZE, SESSION_SIZE]

theorem jsCeilDiv_pos (L D : Nat) (hL : 0 < L) (hD : 0 < D) : 0 < jsCeilDiv L D :=
  Nat.div_pos (by omega) hD

theorem le_mul_jsCeilDiv (L f : Nat) (hf : 0 < f) : L ≤ f * jsCeilDiv L f := by
  unfold jsCeilDiv
  have h1 := Nat.div_add_mod (L + f - 1) f
  have h2 : (L + f - 1) % f < f := Nat.mod_lt _ hf
  omega

theorem flatten_chunks (fs : Nat) :
    ∀ (n : Nat) (d : List Nat),
      ((List.range n).map (fun i => (d.drop (fs * i)).take fs)).flatten = d.take (n * fs) := by
  intro n
  induction n with
  | zero => intro d; simp
  | succ n ih =>
    intro d
    rw [List.range_succ_eq_map]
    simp only [List.map_cons, List.map_map, List.flatten_cons, Nat.mul_zero, List.drop_zero]
    have hfun : ((fun i => (d.drop (fs * i)).take fs) ∘ Nat.succ) =
        (fun i => ((d.drop fs).drop (fs * i)).take fs) := by
      funext i
      simp only [Function.comp_apply, List.drop_drop, Nat.succ_eq_add_one]
      congr 2
      ring
    rw [hfun, ih (d.drop fs)]
    rw [show (n + 1) * fs = fs + n * fs from by ring, List.take_add]

/-- A message with a 100-byte payload. -/
def mC5bad : Message :=
  { sender := some epA, type := 67, command := [112, 105, 110, 103], id := 1,
    dataBuffer := some (List.replicate 100 7) }

/-- C5 counterexample: at payload length 100 and `maxBufferSize = 35`,
fragmentation is triggered (15 + 100 > 35) and the claim predicts
`⌈100 / (35 - 19)⌉ = 7` emitted buffers, but encode raises the configuration
error of line 901 (because `maxDataSize = 16 ≤ MIN_DATA_FRAGMENT_SIZE`) and
emits no buffer at all. -/
theorem C5_counterexample :
    Message.encode mC5bad 35 = Except.error "Message#encode(): maxBufferSize is too small" ∧
    fragmentCount 100 16 = 7 := by decide

/-- C5 (amended): when a payload is present, `maxBufferSize` is positive,
`headerSize + payload.length > maxBufferSize` (fragmentation triggered) and —
the amendment — `maxBufferSize - (headerSize + 4) > MIN_DATA_FRAGMENT_SIZE`,
encode emits exactly `fragments_total = ⌈len / maxDataSize⌉` buffers
(`maxDataSize = maxBufferSize - headerSize`, the header now including the 4
fragment bytes), each sharing the same head except for the fragment index and
carrying the slice `[fragmentSize·i, fragmentSize·(i+1))` of the payload with
`fragmentSize = ⌈len / fragments_total⌉`; concatenating the fragment payload
slices in index order yields the payload exactly. (E.g. len = 1500,
maxBufferSize = 508: header 19, maxDataSize 489, 4 fragments of size 375.) -/
theorem C5_fragment_split (m : Message) (d : List Nat) (B : Int) (D : Nat)
    (hd : m.dataBuffer = some d)
    (hpos : 0 < B)
    (htrig : ((m.headerSizeOf + d.length : Nat) : Int) > B)
    (hD : (D : Int) = B - ((m.headerSizeOf + 4 : Nat) : Int))
    (hroom : MIN_DATA_FRAGMENT_SIZE < D) :
    ∃ bufs, m.encode B = Except.ok bufs ∧
      bufs.length = fragmentCount d.length D ∧
      (∀ i, ∀ hi : i < bufs.length, bufs[i] =
        mkHeadBase m (mkFlags m.wantAck m.isAck m.isNack true true
          m.compressedData m.encryptedData m.sessionId.isSome) ++
        writeUInt16BE i ++ writeUInt16BE (fragmentCount d.length D) ++
        (d.drop (fragmentSizeOf d.length D * i)).take (fragmentSizeOf d.length D)) ∧
      (bufs.map (fun buf => buf.drop (m.headerSizeOf + 4))).flatten = d := by
  have h16 : 16 < D := hroom
  have hng : ¬ (B - ((m.headerSizeOf + 4 : Nat) : Int) ≤ (MIN_DATA_FRAGMENT_SIZE : Int)) := by
    rw [← hD]
    have h2 : ((MIN_DATA_FRAGMENT_SIZE : Nat) : Int) = 16 := rfl
    rw [h2]
    exact_mod_cast Nat.not_le.mpr h16
  have hL : 0 < d.length := by
    have hBD : B = (D : Int) + ((m.headerSizeOf + 4 : Nat) : Int) := by omega
    rw [hBD] at htrig
    push_cast at htrig
    omega
  refine ⟨encodeFragmentBuffers m d D, ?_, ?_, ?_, ?_⟩
  · simp only [Message.encode, hd]
    rw [if_pos ⟨hpos, htrig⟩, if_neg hng, ← hD, Int.toNat_natCast]
  · simp [encodeFragmentBuffers]
  · intro i hi
    simp only [encodeFragmentBuffers] at hi ⊢
    simp only [List.getElem_map, List.getElem_range]
  · have hslice : ((fun buf => buf.drop (m.headerSizeOf + 4)) ∘
        (fun i => mkHeadBase m (mkFlags m.wantAck m.isAck m.isNack true true
          m.compressedData m.encryptedData m.sessionId.isSome) ++
          writeUInt16BE i ++ writeUInt16BE (fragmentCount d.length D) ++
          (d.drop (fragmentSizeOf d.length D * i)).take (fragmentSizeOf d.length D))) =
        (fun i => (d.drop (fragmentSizeOf d.length D * i)).take (fragmentSizeOf d.length D)) := by
      funext i
      simp only [Function.comp_apply]
      exact List.drop_left' (by
        simp [mkHeadBase_length, writeUInt16BE])
    simp only [encodeFragmentBuffers, List.map_map]
    rw [hslice, flatten_chunks]
    apply List.take_of_length_le
    calc d.length ≤ fragmentCount d.length D * fragmentSizeOf d.length D :=
          le_mul_jsCeilDiv d.length (fragmentCount d.length D)
            (jsCeilDiv_pos d.length D hL (by omega))
      _ = _ := rfl

/-- A message with a 1500-byte payload (spec scenario S3). -/
def mC5big : Message :=
  { sender := some epA, type := 81, command := [112, 105, 110, 103], id := 1,
    dataBuffer := some (List.replicate 1500 7) }

set_option maxRecDepth 10000 in
/-- Witness for `C5_fragment_split` at scenario S3: payload 1500,
`maxBufferSize = 508`, `maxDataSize = 489`, 4 fragments. -/
theorem C5_fragment_split_witness :
    ∃ bufs, Message.encode mC5big 508 = Except.ok bufs ∧ bufs.length = 4 := by
  obtain ⟨bufs, he, hlen, -, -⟩ :=
    C5_fragment_split mC5big (List.replicate 1500 7) 508 489 rfl (by decide) (by decide)
      (by decide) (by decide)
  exact ⟨bufs, he, by rw [hlen]; decide⟩

-- ## C1 — round-trip codec (corrected: needs the full data-model invariants)

/-- 4 alphanumeric ASCII, as validated for commands. -/
def isAlnumCode (c : Nat) : Bool :=
  (48 ≤ c && c ≤ 57) || (65 ≤ c && c ≤ 90) || (97 ≤ c && c ≤ 122)

theorem TYPES_lt_128 (ty : Nat) (h : ty ∈ TYPES) : ty < 128 := by
  simp [TYPES] at h
  omega

theorem map_mod256_eq_self (s : List Nat) (hby : ∀ c ∈ s, c < 256) :
    s.map (fun c => c % 256) = s := by
  induction s with
  | nil => rfl
  | cons x xs ih =>
    simp only [List.map_cons, List.cons.injEq]
    exact ⟨Nat.mod_eq_of_lt (hby x (by simp)), ih (fun c hc => hby c (by simp [hc]))⟩

theorem bufWrite_eq_self (s : List Nat) (len : Nat) (hlen : s.length = len)
    (hby : ∀ c ∈ s, c < 256) : bufWrite s len = s := by
  unfold bufWrite
  rw [map_mod256_eq_self s hby, ← hlen, List.take_length]
  simp


-- Structural read lemmas over explicit cons-buffers.
theorem readUInt16_at4 (x0 x1 x2 x3 x4 x5 : Nat) (rest : List Nat) :
    readUInt16BE (x0 :: x1 :: x2 :: x3 :: x4 :: x5 :: rest) 4 = x4 * 256 + x5 := rfl

theorem getD_at6 (x0 x1 x2 x3 x4 x5 x6 : Nat) (rest : List Nat) :
    (x0 :: x1 :: x2 :: x3 :: x4 :: x5 :: x6 :: rest).getD 6 0 = x6 := rfl

theorem dropTake_at7 (x0 x1 x2 x3 x4 x5 x6 x7 x8 x9 x10 : Nat) (rest : List Nat) :
    ((x0 :: x1 :: x2 :: x3 :: x4 :: x5 :: x6 :: x7 :: x8 :: x9 :: x10 :: rest).drop 7).take 4 =
    [x7, x8, x9, x10] := rfl

theorem readUInt32_at11 (x0 x1 x2 x3 x4 x5 x6 x7 x8 x9 x10 y0 y1 y2 y3 : Nat)
    (rest : List Nat) :
    readUInt32BE (x0 :: x1 :: x2 :: x3 :: x4 :: x5 :: x6 :: x7 :: x8 :: x9 :: x10 ::
      y0 :: y1 :: y2 :: y3 :: rest) 11 = ((y0 * 256 + y1) * 256 + y2) * 256 + y3 := rfl

theorem drop_at15 (x0 x1 x2 x3 x4 x5 x6 x7 x8 x9 x10 x11 x12 x13 x14 : Nat)
    (rest : List Nat) :
    (x0 :: x1 :: x2 :: x3 :: x4 :: x5 :: x6 :: x7 :: x8 :: x9 :: x10 ::
      x11 :: x12 :: x13 :: x14 :: rest).drop 15 = rest := rfl

set_option maxHeartbeats 4000000 in
/-- `Message.decode` applied to the exact byte layout `Message.prototype.encode`
produces for a non-fragmented message without session block: every header
field and flag is recovered and the payload is returned as the opaque buffer. -/
theorem decode_explicit_nosess
    (ep : Endpoint) (s0 s1 s2 ty c0 c1 c2 c3 idv : Nat)
    (w a n hD cc ee : Bool) (dbuf : List Nat)
    (hs0 : s0 < 256) (hs1 : s1 < 256) (hs2 : s2 < 256)
    (hty : ty ∈ TYPES)
    (hc0 : c0 < 128) (hc1 : c1 < 128) (hc2 : c2 < 128) (hc3 : c3 < 128)
    (hidv : idv < 4294967296)
    (hwa : (w && (a || n)) = false)
    (hdata : hD = true → a = false ∧ n = false ∧ dbuf ≠ [])
    (hnodata : hD = false → cc = false ∧ ee = false ∧ dbuf = []) :
    Message.decode
      (s0 % 256 :: s1 % 256 :: s2 % 256 :: 0 ::
        mkFlags w a n hD false cc ee false / 256 % 256 ::
        mkFlags w a n hD false cc ee false % 256 ::
        ty % 256 :: c0 % 256 :: c1 % 256 :: c2 % 256 :: c3 % 256 ::
        idv / 16777216 % 256 :: idv / 65536 % 256 :: idv / 256 % 256 :: idv % 256 :: dbuf)
      ep [s0, s1, s2] none =
    some { sender := some ep, protocolSignature := [s0, s1, s2], type := ty,
           command := [c0, c1, c2, c3], id := idv, wantAck := w, isAck := a, isNack := n,
           fragmented := false, compressedData := cc, encryptedData := ee,
           sessionId := none, fragmentIndex := 0, fragments := 1,
           dataBuffer := if hD then some dbuf else none } := by
  obtain ⟨hfw, hfa, hfn, hfh, hff, hfc, hfe, hfsess⟩ :=
    hasFlag_mkFlags w a n hD false cc ee false
  have hty128 : ty < 128 := TYPES_lt_128 ty hty
  unfold Message.decode
  rw [readUInt16_at4, mkFlags_bytes w a n hD false cc ee false]
  rw [hfw, hfa, hfn, hfh, hfc, hfe, hfsess, hwa]
  rw [if_neg (by simp only [List.length_cons, MIN_HEADER_SIZE]; omega)]
  rw [if_neg (by simp)]
  rw [if_neg (by
    simp [Nat.mod_eq_of_lt hs0, Nat.mod_eq_of_lt hs1, Nat.mod_eq_of_lt hs2])]
  rw [if_neg (by simp)]
  rw [if_neg (by simp [Message.staticEnableSession])]
  cases hD with
  | true =>
    obtain ⟨ha, hn, hne⟩ := hdata rfl
    subst ha
    subst hn
    rw [if_pos rfl]
    rw [if_neg (by simp)]
    rw [if_neg (by
      simp only [decodeExpectedSize, hfsess, hff, List.length_cons, MIN_HEADER_SIZE,
        SESSION_SIZE, Bool.false_eq_true, if_false]
      have := List.length_pos.mpr hne
      omega)]
    unfold Message.decodeTail
    rw [getD_at6, Nat.mod_eq_of_lt (by omega : ty < 256)]
    rw [if_neg (by simp [hty])]
    rw [if_neg (by simp)]
    rw [Option.some_inj]
    unfold Message.decodeMessage
    rw [hfw, hfa, hfn, hfh, hff, hfc, hfe, hfsess]
    rw [getD_at6, dropTake_at7, readUInt32_at11]
    simp only [Bool.false_eq_true, if_false, if_true, List.map_cons, List.map_nil,
      MIN_HEADER_SIZE, SESSION_SIZE, Nat.add_zero, drop_at15]
    rw [Message.mk.injEq]
    refine ⟨rfl, rfl, rfl, rfl, rfl, rfl, rfl, rfl, rfl, rfl, ?_, ?_, rfl, rfl, rfl, rfl⟩
    · simp only [List.cons.injEq, and_true]
      omega
    · omega
  | false =>
    obtain ⟨hcc, hee, hnil⟩ := hnodata rfl
    subst hcc
    subst hee
    subst hnil
    rw [if_neg (by simp)]
    rw [if_neg (by simp)]
    rw [if_neg (by
      simp only [decodeExpectedSize, hfsess, hff, List.length_cons, List.length_nil,
        MIN_HEADER_SIZE, SESSION_SIZE, Bool.false_eq_true, if_false]
      omega)]
    unfold Message.decodeTail
    rw [getD_at6, Nat.mod_eq_of_lt (by omega : ty < 256)]
    rw [if_neg (by simp [hty])]
    rw [if_neg (by simp)]
    rw [Option.some_inj]
    unfold Message.decodeMessage
    rw [hfw, hfa, hfn, hfh, hff, hfc, hfe, hfsess]
    rw [getD_at6, dropTake_at7, readUInt32_at11]
    simp only [Bool.false_eq_true, if_false, if_true, List.map_cons, List.map_nil,
      MIN_HEADER_SIZE, SESSION_SIZE, Nat.add_zero]
    rw [Message.mk.injEq]
    refine ⟨rfl, rfl, rfl, rfl, rfl, rfl, rfl, rfl, rfl, rfl, ?_, ?_, rfl, rfl, rfl, rfl⟩
    · simp only [List.cons.injEq, and_true]
      omega
    · omega

theorem drop_at23 (x0 x1 x2 x3 x4 x5 x6 x7 x8 x9 x10 x11 x12 x13 x14 : Nat)
    (rest : List Nat) :
    (x0 :: x1 :: x2 :: x3 :: x4 :: x5 :: x6 :: x7 :: x8 :: x9 :: x10 ::
      x11 :: x12 :: x13 :: x14 :: rest).drop 23 = rest.drop 8 := rfl

set_option maxHeartbeats 4000000 in
/-- As `decode_explicit_nosess`, for a frame carrying an 8-byte session block. -/
theorem decode_explicit_sess
    (ep : Endpoint) (s0 s1 s2 ty c0 c1 c2 c3 idv : Nat)
    (w a n hD cc ee : Bool) (sess dbuf : List Nat)
    (hs0 : s0 < 256) (hs1 : s1 < 256) (hs2 : s2 < 256)
    (hty : ty ∈ TYPES)
    (hc0 : c0 < 128) (hc1 : c1 < 128) (hc2 : c2 < 128) (hc3 : c3 < 128)
    (hidv : idv < 4294967296)
    (hsess8 : sess.length = 8)
    (hwa : (w && (a || n)) = false)
    (hdata : hD = true → a = false ∧ n = false ∧ dbuf ≠ [])
    (hnodata : hD = false → cc = false ∧ ee = false ∧ dbuf = []) :
    Message.decode
      (s0 % 256 :: s1 % 256 :: s2 % 256 :: 0 ::
        mkFlags w a n hD false cc ee true / 256 % 256 ::
        mkFlags w a n hD false cc ee true % 256 ::
        ty % 256 :: c0 % 256 :: c1 % 256 :: c2 % 256 :: c3 % 256 ::
        idv / 16777216 % 256 :: idv / 65536 % 256 :: idv / 256 % 256 :: idv % 256 ::
        (sess ++ dbuf))
      ep [s0, s1, s2] none =
    some { sender := some ep, protocolSignature := [s0, s1, s2], type := ty,
           command := [c0, c1, c2, c3], id := idv, wantAck := w, isAck := a, isNack := n,
           fragmented := false, compressedData := cc, encryptedData := ee,
           sessionId := some sess, fragmentIndex := 0, fragments := 1,
           dataBuffer := if hD then some dbuf else none } := by
  obtain ⟨hfw, hfa, hfn, hfh, hff, hfc, hfe, hfsess⟩ :=
    hasFlag_mkFlags w a n hD false cc ee true
  have hty128 : ty < 128 := TYPES_lt_128 ty hty
  unfold Message.decode
  rw [readUInt16_at4, mkFlags_bytes w a n hD false cc ee true]
  rw [hfw, hfa, hfn, hfh, hfc, hfe, hfsess, hwa]
  rw [if_neg (by simp only [List.length_cons, MIN_HEADER_SIZE]; omega)]
  rw [if_neg (by simp)]
  rw [if_neg (by
    simp [Nat.mod_eq_of_lt hs0, Nat.mod_eq_of_lt hs1, Nat.mod_eq_of_lt hs2])]
  rw [if_neg (by simp)]
  rw [if_neg (by simp [Message.staticEnableSession])]
  cases hD with
  | true =>
    obtain ⟨ha, hn, hne⟩ := hdata rfl
    subst ha
    subst hn
    rw [if_pos rfl]
    rw [if_neg (by simp)]
    rw [if_neg (by
      simp only [decodeExpectedSize, hfsess, hff, List.length_cons, List.length_append,
        MIN_HEADER_SIZE, SESSION_SIZE, Bool.false_eq_true, if_false, if_true]
      have := List.length_pos.mpr hne
      omega)]
    unfold Message.decodeTail
    rw [getD_at6, Nat.mod_eq_of_lt (by omega : ty < 256)]
    rw [if_neg (by simp [hty])]
    rw [if_neg (by simp)]
    rw [Option.some_inj]
    unfold Message.decodeMessage
    rw [hfw, hfa, hfn, hfh, hff, hfc, hfe, hfsess]
    rw [getD_at6, dropTake_at7, readUInt32_at11]
    simp only [Bool.false_eq_true, if_false, if_true, List.map_cons, List.map_nil,
      MIN_HEADER_SIZE, SESSION_SIZE, Nat.add_zero, drop_at15]
    rw [show (15 : Nat) + 8 = 23 from rfl, drop_at23, List.take_left' hsess8,
      List.drop_left' hsess8]
    rw [Message.mk.injEq]
    refine ⟨rfl, rfl, rfl, rfl, rfl, rfl, rfl, rfl, rfl, rfl, ?_, ?_, rfl, rfl, rfl, rfl⟩
    · simp only [List.cons.injEq, and_true]
      omega
    · omega
  | false =>
    obtain ⟨hcc, hee, hnil⟩ := hnodata rfl
    subst hcc
    subst hee
    subst hnil
    rw [if_neg (by simp)]
    rw [if_neg (by simp)]
    rw [if_neg (by
      simp only [decodeExpectedSize, hfsess, hff, List.length_cons, List.length_append,
        List.length_nil, MIN_HEADER_SIZE, SESSION_SIZE, Bool.false_eq_true, if_false,
        if_true]
      omega)]
    unfold Message.decodeTail
    rw [getD_at6, Nat.mod_eq_of_lt (by omega : ty < 256)]
    rw [if_neg (by simp [hty])]
    rw [if_neg (by simp)]
    rw [Option.some_inj]
    unfold Message.decodeMessage
    rw [hfw, hfa, hfn, hfh, hff, hfc, hfe, hfsess]
    rw [getD_at6, dropTake_at7, readUInt32_at11]
    simp only [Bool.false_eq_true, if_false, if_true, List.map_cons, List.map_nil,
      MIN_HEADER_SIZE, SESSION_SIZE, Nat.add_zero, drop_at15]
    rw [List.take_left' hsess8]
    rw [Message.mk.injEq]
    refine ⟨rfl, rfl, rfl, rfl, rfl, rfl, rfl, rfl, rfl, rfl, ?_, ?_, rfl, rfl, rfl, rfl⟩
    · simp only [List.cons.injEq, and_true]
      omega
    · omega

theorem list_length_eq_four {α : Type} {l : List α} (h : l.length = 4) :
    ∃ a b c d, l = [a, b, c, d] := by
  rcases l with _ | ⟨a, _ | ⟨b, _ | ⟨c, _ | ⟨d, _ | ⟨e, tl⟩⟩⟩⟩⟩ <;> simp_all

set_option maxHeartbeats 4000000 in
/-- C1 (amended): for every non-fragmented message that satisfies the full
data-model well-formedness — type in the closed set, command 4 alphanumeric
ASCII bytes, id a uint32, signature 3 bytes, fragment fields at their
defaults, NOT want_ack together with is_ack OR is_nack, no payload on
ack/nack, payload present when compressed/encrypted, payload nonempty when
present, and an 8-byte session id when present — encoding with fragmentation
disabled (`maxBufferSize = 0`) yields exactly one buffer, and decoding that
buffer with the message's sender and protocol signature succeeds and yields a
message equal to `m` on every header field and flag, with the payload equal
as an opaque encoded buffer. -/
theorem C1_roundtrip_amended (m : Message) (ep : Endpoint)
    (hsender : m.sender = some ep)
    (htype : m.type ∈ TYPES)
    (hcmdLen : m.command.length = 4)
    (hcmdAl : ∀ c ∈ m.command, isAlnumCode c = true)
    (hid : m.id < 4294967296)
    (hsigLen : m.protocolSignature.length = 3)
    (hsigByte : ∀ c ∈ m.protocolSignature, c < 256)
    (hfrag : m.fragmented = false)
    (hfi : m.fragmentIndex = 0)
    (hfs : m.fragments = 1)
    (hackwant : ¬(m.isAck = true ∧ m.wantAck = true))
    (hnackwant : ¬(m.isNack = true ∧ m.wantAck = true))
    (hackdata : m.isAck = true ∨ m.isNack = true → m.dataBuffer = none)
    (hcompdata : m.compressedData = true ∨ m.encryptedData = true → m.dataBuffer ≠ none)
    (hdataNE : ∀ dbuf, m.dataBuffer = some dbuf → dbuf ≠ [])
    (hsessOk : ∀ sess, m.sessionId = some sess → sess.length = 8 ∧ ∀ c ∈ sess, c < 256) :
    ∃ b, m.encode 0 = Except.ok [b] ∧
      ∃ m2, Message.decode b ep m.protocolSignature none = some m2 ∧
        m2.protocolSignature = m.protocolSignature ∧ m2.type = m.type ∧
        m2.command = m.command ∧ m2.id = m.id ∧ m2.wantAck = m.wantAck ∧
        m2.isAck = m.isAck ∧ m2.isNack = m.isNack ∧ m2.fragmented = m.fragmented ∧
        m2.compressedData = m.compressedData ∧ m2.encryptedData = m.encryptedData ∧
        m2.sessionId = m.sessionId ∧ m2.fragmentIndex = m.fragmentIndex ∧
        m2.fragments = m.fragments ∧ m2.dataBuffer = m.dataBuffer ∧
        m2.sender = some ep := by
  obtain ⟨s0, s1, s2, hsig⟩ := List.length_eq_three.mp hsigLen
  obtain ⟨c0, c1, c2, c3, hcmd⟩ := list_length_eq_four hcmdLen
  have hs0 : s0 < 256 := hsigByte s0 (by rw [hsig]; simp)
  have hs1 : s1 < 256 := hsigByte s1 (by rw [hsig]; simp)
  have hs2 : s2 < 256 := hsigByte s2 (by rw [hsig]; simp)
  have hcb : ∀ c ∈ m.command, c < 128 := by
    intro c hc
    have := hcmdAl c hc
    simp [isAlnumCode] at this
    omega
  have hc0 : c0 < 128 := hcb c0 (by rw [hcmd]; simp)
  have hc1 : c1 < 128 := hcb c1 (by rw [hcmd]; simp)
  have hc2 : c2 < 128 := hcb c2 (by rw [hcmd]; simp)
  have hc3 : c3 < 128 := hcb c3 (by rw [hcmd]; simp)
  have hwa : (m.wantAck && (m.isAck || m.isNack)) = false := by
    cases h1 : m.isAck <;> cases h2 : m.isNack <;> cases h3 : m.wantAck <;> simp_all
  rcases hdb : m.dataBuffer with _ | dbuf
  · -- no payload: ack/nack-able, compressed/encrypted must be off
    have hC : m.compressedData = false := by
      cases hx : m.compressedData
      · rfl
      · exact absurd hdb (hcompdata (Or.inl hx))
    have hE : m.encryptedData = false := by
      cases hx : m.encryptedData
      · rfl
      · exact absurd hdb (hcompdata (Or.inr hx))
    rcases hsid : m.sessionId with _ | sess
    · have hisSome : m.sessionId.isSome = false := by rw [hsid]; rfl
      have henc : m.encode 0 = Except.ok [mkHeadBase m
          (mkFlags m.wantAck m.isAck m.isNack false false false false false)] := by
        simp only [Message.encode, hdb, hisSome]
        rw [if_neg (by simp [hfrag])]
      have hb : mkHeadBase m (mkFlags m.wantAck m.isAck m.isNack false false false false false) =
          s0 % 256 :: s1 % 256 :: s2 % 256 :: 0 ::
          mkFlags m.wantAck m.isAck m.isNack false false false false false / 256 % 256 ::
          mkFlags m.wantAck m.isAck m.isNack false false false false false % 256 ::
          m.type % 256 :: c0 % 256 :: c1 % 256 :: c2 % 256 :: c3 % 256 ::
          m.id / 16777216 % 256 :: m.id / 65536 % 256 :: m.id / 256 % 256 :: m.id % 256 ::
          ([] : List Nat) := by
        simp [mkHeadBase, hsig, hcmd, hsid, bufWrite, writeUInt16BE, writeUInt32BE]
      refine ⟨_, henc, ?_⟩
      rw [hb, hsig]
      refine ⟨_, decode_explicit_nosess ep s0 s1 s2 m.type c0 c1 c2 c3 m.id
        m.wantAck m.isAck m.isNack false false false [] hs0 hs1 hs2 htype hc0 hc1 hc2 hc3
        hid hwa (fun hx => Bool.noConfusion hx) (fun _ => ⟨rfl, rfl, rfl⟩), ?_⟩
      exact ⟨rfl, rfl, hcmd.symm, rfl, rfl, rfl, rfl, hfrag.symm, hC.symm, hE.symm,
        rfl, hfi.symm, hfs.symm, by simp, rfl⟩
    · obtain ⟨hsl, hby⟩ := hsessOk sess hsid
      have hisSome : m.sessionId.isSome = true := by rw [hsid]; rfl
      have hsw : bufWrite sess 8 = sess := bufWrite_eq_self sess 8 hsl hby
      have henc : m.encode 0 = Except.ok [mkHeadBase m
          (mkFlags m.wantAck m.isAck m.isNack false false false false true)] := by
        simp only [Message.encode, hdb, hisSome]
        rw [if_neg (by simp [hfrag])]
      have hb : mkHeadBase m (mkFlags m.wantAck m.isAck m.isNack false false false false true) =
          s0 % 256 :: s1 % 256 :: s2 % 256 :: 0 ::
          mkFlags m.wantAck m.isAck m.isNack false false false false true / 256 % 256 ::
          mkFlags m.wantAck m.isAck m.isNack false false false false true % 256 ::
          m.type % 256 :: c0 % 256 :: c1 % 256 :: c2 % 256 :: c3 % 256 ::
          m.id / 16777216 % 256 :: m.id / 65536 % 256 :: m.id / 256 % 256 :: m.id % 256 ::
          (sess ++ ([] : List Nat)) := by
        simp [mkHeadBase, hsig, hcmd, hsid, hsw, bufWrite, writeUInt16BE, writeUInt32BE,
          SESSION_SIZE, map_mod256_eq_self sess hby, hsl,
          (List.take_of_length_le (by omega : sess.length ≤ 8) : sess.take 8 = sess)]
      refine ⟨_, henc, ?_⟩
      rw [hb, hsig]
      refine ⟨_, decode_explicit_sess ep s0 s1 s2 m.type c0 c1 c2 c3 m.id
        m.wantAck m.isAck m.isNack false false false sess [] hs0 hs1 hs2 htype hc0 hc1 hc2 hc3
        hid hsl hwa (fun hx => Bool.noConfusion hx) (fun _ => ⟨rfl, rfl, rfl⟩), ?_⟩
      exact ⟨rfl, rfl, hcmd.symm, rfl, rfl, rfl, rfl, hfrag.symm, hC.symm, hE.symm,
        rfl, hfi.symm, hfs.symm, by simp, rfl⟩
  · -- payload present: ack/nack are off
    have hA : m.isAck = false := by
      cases hx : m.isAck
      · rfl
      · have := hackdata (Or.inl hx)
        rw [hdb] at this
        exact Option.noConfusion this
    have hN : m.isNack = false := by
      cases hx : m.isNack
      · rfl
      · have := hackdata (Or.inr hx)
        rw [hdb] at this
        exact Option.noConfusion this
    have hne : dbuf ≠ [] := hdataNE dbuf hdb
    rcases hsid : m.sessionId with _ | sess
    · have hisSome : m.sessionId.isSome = false := by rw [hsid]; rfl
      have henc : m.encode 0 = Except.ok [mkHeadBase m
          (mkFlags m.wantAck m.isAck m.isNack true false m.compressedData m.encryptedData false)
          ++ dbuf] := by
        simp only [Message.encode, hdb, hisSome]
        rw [if_neg (by norm_num)]
      have hb : mkHeadBase m
          (mkFlags m.wantAck m.isAck m.isNack true false m.compressedData m.encryptedData false)
          ++ dbuf =
          s0 % 256 :: s1 % 256 :: s2 % 256 :: 0 ::
          mkFlags m.wantAck m.isAck m.isNack true false m.compressedData m.encryptedData false
            / 256 % 256 ::
          mkFlags m.wantAck m.isAck m.isNack true false m.compressedData m.encryptedData false
            % 256 ::
          m.type % 256 :: c0 % 256 :: c1 % 256 :: c2 % 256 :: c3 % 256 ::
          m.id / 16777216 % 256 :: m.id / 65536 % 256 :: m.id / 256 % 256 :: m.id % 256 ::
          dbuf := by
        simp [mkHeadBase, hsig, hcmd, hsid, bufWrite, writeUInt16BE, writeUInt32BE]
      refine ⟨_, henc, ?_⟩
      rw [hb, hsig]
      refine ⟨_, decode_explicit_nosess ep s0 s1 s2 m.type c0 c1 c2 c3 m.id
        m.wantAck m.isAck m.isNack true m.compressedData m.encryptedData dbuf
        hs0 hs1 hs2 htype hc0 hc1 hc2 hc3 hid hwa
        (fun _ => ⟨hA, hN, hne⟩) (fun hx => Bool.noConfusion hx), ?_⟩
      exact ⟨rfl, rfl, hcmd.symm, rfl, rfl, rfl, rfl, hfrag.symm, rfl, rfl,
        rfl, hfi.symm, hfs.symm, by simp, rfl⟩
    · obtain ⟨hsl, hby⟩ := hsessOk sess hsid
      have hisSome : m.sessionId.isSome = true := by rw [hsid]; rfl
      have hsw : bufWrite sess 8 = sess := bufWrite_eq_self sess 8 hsl hby
      have henc : m.encode 0 = Except.ok [mkHeadBase m
          (mkFlags m.wantAck m.isAck m.isNack true false m.compressedData m.encryptedData true)
          ++ dbuf] := by
        simp only [Message.encode, hdb, hisSome]
        rw [if_neg (by norm_num)]
      have hb : mkHeadBase m
          (mkFlags m.wantAck m.isAck m.isNack true false m.compressedData m.encryptedData true)
          ++ dbuf =
          s0 % 256 :: s1 % 256 :: s2 % 256 :: 0 ::
          mkFlags m.wantAck m.isAck m.isNack true false m.compressedData m.encryptedData true
            / 256 % 256 ::
          mkFlags m.wantAck m.isAck m.isNack true false m.compressedData m.encryptedData true
            % 256 ::
          m.type % 256 :: c0 % 256 :: c1 % 256 :: c2 % 256 :: c3 % 256 ::
          m.id / 16777216 % 256 :: m.id / 65536 % 256 :: m.id / 256 % 256 :: m.id % 256 ::
          (sess ++ dbuf) := by
        simp [mkHeadBase, hsig, hcmd, hsid, hsw, bufWrite, writeUInt16BE, writeUInt32BE,
          SESSION_SIZE, map_mod256_eq_self sess hby, hsl,
          (List.take_of_length_le (by omega : sess.length ≤ 8) : sess.take 8 = sess)]
      refine ⟨_, henc, ?_⟩
      rw [hb, hsig]
      refine ⟨_, decode_explicit_sess ep s0 s1 s2 m.type c0 c1 c2 c3 m.id
        m.wantAck m.isAck m.isNack true m.compressedData m.encryptedData sess dbuf
        hs0 hs1 hs2 htype hc0 hc1 hc2 hc3 hid hsl hwa
        (fun _ => ⟨hA, hN, hne⟩) (fun hx => Bool.noConfusion hx), ?_⟩
      exact ⟨rfl, rfl, hcmd.symm, rfl, rfl, rfl, rfl, hfrag.symm, rfl, rfl,
        rfl, hfi.symm, hfs.symm, by simp, rfl⟩


/-- A message satisfying all of the original claim's stated well-formedness
conditions, but carrying want_ack together with is_nack. -/
def mC1bad : Message :=
  { sender := some epA, type := 67, command := [112, 105, 110, 103], id := 1,
    wantAck := true, isNack := true }

/-- C1 counterexample: `mC1bad` meets every condition the claim lists (type in
the closed set, command 4 alphanumeric ASCII bytes, id a uint32, not both
is_ack and want_ack, non-fragmented), encode with fragmentation disabled
yields exactly one buffer (flags 0x0005), yet `Message.decode` rejects that
buffer: line 770 rejects `want_ack` combined with `is_nack` as well, a case
the claim's well-formedness does not exclude. -/
theorem C1_counterexample :
    (mC1bad.type ∈ TYPES ∧ mC1bad.command.length = 4 ∧
      (∀ c ∈ mC1bad.command, isAlnumCode c = true) ∧ mC1bad.id < 4294967296 ∧
      ¬(mC1bad.isAck = true ∧ mC1bad.wantAck = true) ∧ mC1bad.fragmented = false) ∧
    mC1bad.encode 0 =
      Except.ok [[85, 78, 80, 0, 0, 5, 67, 112, 105, 110, 103, 0, 0, 0, 1]] ∧
    Message.decode [85, 78, 80, 0, 0, 5, 67, 112, 105, 110, 103, 0, 0, 0, 1] epA
      mC1bad.protocolSignature none = none := by decide

/-- A fully-featured well-formed query: want_ack, compressed 3-byte payload,
8-byte session id. -/
def mC1w : Message :=
  { sender := some epA, protocolSignature := [85, 78, 80], type := 81,
    command := [112, 105, 110, 103], id := 3735928559, wantAck := true,
    compressedData := true, sessionId := some [170, 187, 204, 221, 238, 255, 0, 17],
    dataBuffer := some [1, 2, 3] }

/-- Witness for `C1_roundtrip_amended` at the concrete message `mC1w`. -/
theorem C1_roundtrip_amended_witness :
    ∃ b, mC1w.encode 0 = Except.ok [b] ∧
      ∃ m2, Message.decode b epA mC1w.protocolSignature none = some m2 ∧
        m2.command = mC1w.command ∧ m2.id = mC1w.id ∧
        m2.sessionId = mC1w.sessionId ∧ m2.dataBuffer = mC1w.dataBuffer := by
  obtain ⟨b, he, m2, hdec, hp, ht, hcmd, hid, hw, ha, hn, hf, hc, hen, hsess, hfi, hfs2,
      hdb2, hsend⟩ :=
    C1_roundtrip_amended mC1w epA rfl (by decide) rfl (by decide) (by decide) rfl
      (by decide) rfl rfl rfl (by decide) (by decide) (by decide) (by decide)
      (fun dbuf h => by obtain rfl := Option.some_inj.mp h; decide)
      (fun sess h => by obtain rfl := Option.some_inj.mp h; exact ⟨rfl, by decide⟩)
  exact ⟨b, he, m2, hdec, hcmd, hid, hsess, hdb2⟩
